import Mathlib

/-!
Verification of the Git-Summarizer core parsing layer.

Shallow embedding of `src/git_summarizer/git/analyzer.py` and
`src/git_summarizer/config.py`.  Text is modelled as `List Char`;
Python's `str.split(sep)` and `str.strip()` are embedded as `pySplit`
and `pyStrip`.  Subprocess output and the Python `datetime` library are
abstracted: the git calls become explicit text parameters and
`datetime.fromisoformat`/`datetime.now` become a parameter
`fromiso : List Char → Option Nat` and a parameter `now : Nat`.
-/

namespace GitSummarizer

/-- Python `s.split(sep)` for a one-character separator: splits on every
occurrence, keeps empty pieces, and yields `[[]]` on the empty string. -/
def pySplit (sep : Char) : List Char → List (List Char)
  | [] => [[]]
  | c :: cs =>
    if c = sep then [] :: pySplit sep cs
    else (c :: (pySplit sep cs).headD []) :: (pySplit sep cs).tail

/-- Python `s.strip()`: drop leading and trailing whitespace. -/
def pyStrip (l : List Char) : List Char :=
  ((l.dropWhile Char.isWhitespace).reverse.dropWhile Char.isWhitespace).reverse

theorem pySplit_ne_nil (sep : Char) (l : List Char) : pySplit sep l ≠ [] := by
  cases l with
  | nil => simp [pySplit]
  | cons c cs =>
    simp only [pySplit]
    split <;> simp

theorem pySplit_of_not_mem {sep : Char} {l : List Char} (h : sep ∉ l) :
    pySplit sep l = [l] := by
  induction l with
  | nil => rfl
  | cons c cs ih =>
    have hc : ¬ c = sep := fun hcs => h (hcs ▸ List.mem_cons_self c cs)
    have hcs : sep ∉ cs := fun hm => h (List.mem_cons_of_mem c hm)
    simp [pySplit, hc, ih hcs]

theorem pySplit_append {sep : Char} {a : List Char} (b : List Char) (h : sep ∉ a) :
    pySplit sep (a ++ sep :: b) = a :: pySplit sep b := by
  induction a with
  | nil => simp [pySplit]
  | cons c cs ih =>
    have hc : ¬ c = sep := fun hcs => h (hcs ▸ List.mem_cons_self c cs)
    have hcs : sep ∉ cs := fun hm => h (List.mem_cons_of_mem c hm)
    simp [pySplit, hc, ih hcs]

theorem dropWhile_eq_self_of_head {p : Char → Bool} {l : List Char}
    (h : ∀ c, l.head? = some c → p c = false) : l.dropWhile p = l := by
  cases l with
  | nil => rfl
  | cons c cs => simp [List.dropWhile_cons, h c rfl]

theorem pyStrip_eq_self {l : List Char}
    (h1 : ∀ c, l.head? = some c → c.isWhitespace = false)
    (h2 : ∀ c, l.getLast? = some c → c.isWhitespace = false) :
    pyStrip l = l := by
  unfold pyStrip
  rw [dropWhile_eq_self_of_head h1]
  rw [dropWhile_eq_self_of_head (by simpa using h2)]
  exact List.reverse_reverse l

theorem mem_dropWhile_of_mem {p : Char → Bool} {c : Char} {l : List Char}
    (hc : c ∈ l) (h : p c = false) : c ∈ l.dropWhile p := by
  induction l with
  | nil => cases hc
  | cons a l ih =>
    rcases List.mem_cons.mp hc with rfl | hm
    · cases hp : p c with
      | false => simp [List.dropWhile_cons, hp]
      | true => rw [hp] at h; cases h
    · cases hp : p a with
      | false => simp [List.dropWhile_cons, hp]; right; exact hm
      | true => simpa [List.dropWhile_cons, hp] using ih hm

theorem mem_pyStrip {c : Char} {l : List Char} (hc : c ∈ l)
    (hw : c.isWhitespace = false) : c ∈ pyStrip l := by
  unfold pyStrip
  rw [List.mem_reverse]
  exact mem_dropWhile_of_mem (by rw [List.mem_reverse]; exact mem_dropWhile_of_mem hc hw) hw

theorem pyStrip_ne_nil {c : Char} {l : List Char} (hc : c ∈ l)
    (hw : c.isWhitespace = false) : pyStrip l ≠ [] :=
  List.ne_nil_of_mem (mem_pyStrip hc hw)

/-! ## Repository status (`GitAnalyzer.get_repo_status`) -/

/-- `RepoStatus` dataclass of `analyzer.py`. -/
structure RepoStatus where
  staged : List (List Char)
  modified : List (List Char)
  untracked : List (List Char)
  is_dirty : Bool
  branch : List Char
deriving Repr, DecidableEq

/-- The body of the `for line in status_output.strip().split('\n')` loop of
`get_repo_status`.  An empty line is skipped; a one-character line makes
Python raise `IndexError` at `code[1]`, modelled as `none`. -/
def statusStep (acc : List (List Char) × List (List Char) × List (List Char))
    (line : List Char) :
    Option (List (List Char) × List (List Char) × List (List Char)) :=
  match line with
  | [] => some acc
  | [_] => none
  | c0 :: c1 :: _ =>
    let filename := line.drop 3
    some
      (if ['M', 'A', 'D', 'R', 'C'].contains c0 then acc.1 ++ [filename] else acc.1,
       if c1 == 'M' then acc.2.1 ++ [filename] else acc.2.1,
       if c0 == '?' && c1 == '?' then acc.2.2 ++ [filename] else acc.2.2)

/-- `GitAnalyzer.get_repo_status`, with the raw `git status --porcelain`
output and the current branch passed in explicitly. -/
def get_repo_status (status_output branch : List Char) : Option RepoStatus :=
  match (pySplit '\n' (pyStrip status_output)).foldlM statusStep ([], [], []) with
  | none => none
  | some acc =>
    some { staged := acc.1, modified := acc.2.1, untracked := acc.2.2,
           is_dirty := !acc.1.isEmpty || !acc.2.1.isEmpty, branch := branch }

/-- A status line whose index-status character is in `'MADRC'`. -/
def stagedLine : List Char → Bool
  | c0 :: _ :: _ => ['M', 'A', 'D', 'R', 'C'].contains c0
  | _ => false

/-- A status line whose working-tree-status character is `'M'`. -/
def modifiedLine : List Char → Bool
  | _ :: c1 :: _ => c1 == 'M'
  | _ => false

/-- A status line whose two-character code is exactly `"??"`. -/
def untrackedLine : List Char → Bool
  | c0 :: c1 :: _ => c0 == '?' && c1 == '?'
  | _ => false

/-- `line[3:]`, the path part of a porcelain status line. -/
def pathOf (l : List Char) : List Char := l.drop 3

theorem statusFold (lines : List (List Char))
    (h : ∀ l ∈ lines, l ≠ [] → 2 ≤ l.length) :
    ∀ s m u : List (List Char),
    lines.foldlM statusStep (s, m, u) =
      some (s ++ (lines.filter stagedLine).map pathOf,
            m ++ (lines.filter modifiedLine).map pathOf,
            u ++ (lines.filter untrackedLine).map pathOf) := by
  induction lines with
  | nil => intro s m u; simp
  | cons l ls ih =>
    intro s m u
    have hls : ∀ x ∈ ls, x ≠ [] → 2 ≤ x.length :=
      fun x hx => h x (List.mem_cons_of_mem l hx)
    match l with
    | [] =>
      rw [List.foldlM_cons]
      show Option.bind (statusStep (s, m, u) []) _ = _
      rw [show statusStep (s, m, u) [] = some (s, m, u) from rfl]
      simp only [Option.bind]
      rw [ih hls s m u]
      simp [stagedLine, modifiedLine, untrackedLine, List.filter_cons]
    | [c] =>
      exact absurd (h [c] (List.mem_cons_self _ _) (by simp)) (by simp)
    | c0 :: c1 :: rest =>
      rw [List.foldlM_cons]
      show Option.bind (statusStep (s, m, u) (c0 :: c1 :: rest)) _ = _
      rw [show statusStep (s, m, u) (c0 :: c1 :: rest) = some
        (if ['M', 'A', 'D', 'R', 'C'].contains c0 then s ++ [(c0 :: c1 :: rest).drop 3] else s,
         if c1 == 'M' then m ++ [(c0 :: c1 :: rest).drop 3] else m,
         if c0 == '?' && c1 == '?' then u ++ [(c0 :: c1 :: rest).drop 3] else u) from rfl]
      simp only [Option.bind]
      rw [ih hls]
      simp only [List.filter_cons, stagedLine, modifiedLine, untrackedLine,
        Option.some_inj, Prod.mk.injEq]
      refine ⟨?_, ?_, ?_⟩ <;> (split <;> simp [pathOf, List.append_assoc])

/-- C1: for every porcelain status input (each non-empty line carrying a
two-character code), `get_repo_status` appends the path of a line to
`staged` when character 0 is in `MADRC`, to `modified` when character 1 is
`M`, and to `untracked` when the code is exactly `??`; a line satisfying
both the staged and the modified condition lands in both lists; and the
input `"M  file1.py\n?? file2.py\n"` yields `staged = ["file1.py"]`,
`modified = []`, `untracked = ["file2.py"]`. -/
theorem C1_status_classification :
    (∀ out branch : List Char,
      (∀ l ∈ pySplit '\n' (pyStrip out), l ≠ [] → 2 ≤ l.length) →
      ∃ st : RepoStatus, get_repo_status out branch = some st ∧
        st.staged = ((pySplit '\n' (pyStrip out)).filter stagedLine).map pathOf ∧
        st.modified = ((pySplit '\n' (pyStrip out)).filter modifiedLine).map pathOf ∧
        st.untracked = ((pySplit '\n' (pyStrip out)).filter untrackedLine).map pathOf ∧
        ∀ l ∈ pySplit '\n' (pyStrip out), stagedLine l = true → modifiedLine l = true →
          pathOf l ∈ st.staged ∧ pathOf l ∈ st.modified) ∧
    get_repo_status ("M  file1.py\n?? file2.py\n".toList) ("main".toList) =
      some { staged := ["file1.py".toList], modified := [],
             untracked := ["file2.py".toList],
             is_dirty := true, branch := "main".toList } := by
  constructor
  · intro out branch h
    unfold get_repo_status
    rw [statusFold _ h]
    refine ⟨_, rfl, by simp, by simp, by simp, ?_⟩
    intro l hl h1 h2
    constructor
    · simp only [List.nil_append, List.mem_map]
      exact ⟨l, List.mem_filter.mpr ⟨hl, h1⟩, rfl⟩
    · simp only [List.nil_append, List.mem_map]
      exact ⟨l, List.mem_filter.mpr ⟨hl, h2⟩, rfl⟩
  · decide

/-- Witness for C1: the general classification applied to the concrete
porcelain input `"A  new.py\nMM both.py"`, whose second line is both
staged and modified. -/
theorem C1_witness :
    ∃ st : RepoStatus,
      get_repo_status ("A  new.py\nMM both.py".toList) ("dev".toList) = some st ∧
      st.staged =
        (((pySplit '\n' (pyStrip "A  new.py\nMM both.py".toList)).filter stagedLine).map pathOf) ∧
      st.modified =
        (((pySplit '\n' (pyStrip "A  new.py\nMM both.py".toList)).filter modifiedLine).map pathOf) ∧
      st.untracked =
        (((pySplit '\n' (pyStrip "A  new.py\nMM both.py".toList)).filter untrackedLine).map pathOf) ∧
      ∀ l ∈ pySplit '\n' (pyStrip "A  new.py\nMM both.py".toList),
        stagedLine l = true → modifiedLine l = true →
          pathOf l ∈ st.staged ∧ pathOf l ∈ st.modified :=
  C1_status_classification.1 ("A  new.py\nMM both.py".toList) ("dev".toList) (by decide)

/-- C2: any `RepoStatus` produced by `get_repo_status` has
`is_dirty = true` iff `staged` or `modified` is non-empty, and an input
all of whose non-empty lines start with `"??"` yields `is_dirty = false`. -/
theorem C2_is_dirty :
    (∀ (out branch : List Char) (st : RepoStatus),
      get_repo_status out branch = some st →
      (st.is_dirty = true ↔ (st.staged ≠ [] ∨ st.modified ≠ []))) ∧
    (∀ out branch : List Char,
      (∀ l ∈ pySplit '\n' (pyStrip out), l ≠ [] → l.take 2 = ['?', '?']) →
      ∃ st : RepoStatus, get_repo_status out branch = some st ∧ st.is_dirty = false) := by
  have shape : ∀ (h2 : List Char → Bool) (out : List Char),
      (∀ l ∈ pySplit '\n' (pyStrip out), l ≠ [] → l.take 2 = ['?', '?']) →
      (∀ rest : List Char, h2 ('?' :: '?' :: rest) = false) → h2 [] = false →
      (pySplit '\n' (pyStrip out)).filter h2 = [] := by
    intro h2 out h hq hnil
    rw [List.filter_eq_nil_iff]
    intro l hl
    by_cases hne : l = []
    · subst hne; simp [hnil]
    · have ht := h l hl hne
      rcases l with _ | ⟨c0, _ | ⟨c1, rest⟩⟩
      · exact absurd rfl hne
      · simp at ht
      · simp at ht
        obtain ⟨rfl, rfl⟩ := ht
        simp [hq]
  constructor
  · intro out branch st h
    unfold get_repo_status at h
    cases hf : (pySplit '\n' (pyStrip out)).foldlM statusStep ([], [], []) with
    | none => rw [hf] at h; cases h
    | some acc =>
      rw [hf] at h
      obtain ⟨s, m, u⟩ := acc
      cases h
      show (!s.isEmpty || !m.isEmpty) = true ↔ _
      cases s <;> cases m <;> simp
  · intro out branch h
    have hlen : ∀ l ∈ pySplit '\n' (pyStrip out), l ≠ [] → 2 ≤ l.length := by
      intro l hl hne
      have ht : (l.take 2).length = 2 := by rw [h l hl hne]; rfl
      simp [List.length_take] at ht
      omega
    have hs : (pySplit '\n' (pyStrip out)).filter stagedLine = [] :=
      shape stagedLine out h (by intro rest; simp [stagedLine]) (by simp [stagedLine])
    have hm : (pySplit '\n' (pyStrip out)).filter modifiedLine = [] :=
      shape modifiedLine out h (by intro rest; simp [modifiedLine]) (by simp [modifiedLine])
    unfold get_repo_status
    rw [statusFold _ hlen, hs, hm]
    exact ⟨_, rfl, rfl⟩

/-- Witness for C2: an untracked-only porcelain input is parsed and is not
dirty. -/
theorem C2_witness :
    ∃ st : RepoStatus,
      get_repo_status ("?? a.py\n?? b.py\n".toList) ("main".toList) = some st ∧
      st.is_dirty = false :=
  C2_is_dirty.2 ("?? a.py\n?? b.py\n".toList) ("main".toList) (by decide)

/-! ## Diff statistics (`GitAnalyzer._parse_diff_stats`) -/

/-- `DiffSummary` dataclass of `analyzer.py`. -/
structure DiffSummary where
  files : List (List Char)
  total_additions : Nat
  total_deletions : Nat
  raw_diff : List Char
deriving Repr, DecidableEq

/-- `int` of a digit string. -/
def digitsToNat (ds : List Char) : Nat :=
  ds.foldl (fun a c => 10 * a + (c.toNat - '0'.toNat)) 0

/-- One anchored attempt of the regex `(\d+) <unit>s?\(<sign>\)` (with
`unit` carrying its leading space, e.g. `" insertion"`): a maximal
non-empty digit run, the literal unit word, an optional `s`, and the
parenthesised sign. -/
def matchStatAt (unit : List Char) (sign : Char) (cs : List Char) : Option Nat :=
  let digits := cs.takeWhile Char.isDigit
  if digits.isEmpty then none
  else
    let rest := cs.drop digits.length
    if unit.isPrefixOf rest then
      let r2 := rest.drop unit.length
      if ['s', '(', sign, ')'].isPrefixOf r2 || ['(', sign, ')'].isPrefixOf r2 then
        some (digitsToNat digits)
      else none
    else none

/-- `re.search` for the stat pattern: leftmost match wins. -/
def searchStat (unit : List Char) (sign : Char) : List Char → Option Nat
  | [] => none
  | c :: cs =>
    match matchStatAt unit sign (c :: cs) with
    | some n => some n
    | none => searchStat unit sign cs

/-- The truncation step at the end of `_parse_diff_stats`: Python's
`if max_chars and len(raw_diff) > max_chars` (so `None` and `0` both
disable truncation). -/
def truncate_diff (raw_diff : List Char) (max_chars : Option Nat) : List Char :=
  match max_chars with
  | none => raw_diff
  | some n =>
    if n ≠ 0 ∧ n < raw_diff.length then
      raw_diff.take n ++ "\n\n... (truncated)".toList
    else raw_diff

/-- `GitAnalyzer._parse_diff_stats`. -/
def parse_diff_stats (raw_diff stat_output : List Char) (max_chars : Option Nat) :
    DiffSummary :=
  let lines := pySplit '\n' (pyStrip stat_output)
  { files := (lines.filter (fun l => l.contains '|')).map
      (fun l => pyStrip (l.takeWhile (fun c => c != '|'))),
    total_additions := (searchStat " insertion".toList '+' stat_output).getD 0,
    total_deletions := (searchStat " deletion".toList '-' stat_output).getD 0,
    raw_diff := truncate_diff raw_diff max_chars }

/-- C3: the `files` list of `_parse_diff_stats` is the trimmed
before-the-bar part of each summary line containing `|`, in input order;
an absent insertions (resp. deletions) pattern yields a zero count; and
the concrete two-file summary with `10 insertions(+)` and
`3 deletions(-)` produces two files, 10 additions and 3 deletions. -/
theorem C3_diff_stat_parsing :
    (∀ (raw stat : List Char) (mc : Option Nat),
      (parse_diff_stats raw stat mc).files =
        ((pySplit '\n' (pyStrip stat)).filter (fun l => l.contains '|')).map
          (fun l => pyStrip (l.takeWhile (fun c => c != '|')))) ∧
    (∀ (raw stat : List Char) (mc : Option Nat),
      searchStat " insertion".toList '+' stat = none →
      (parse_diff_stats raw stat mc).total_additions = 0) ∧
    (∀ (raw stat : List Char) (mc : Option Nat),
      searchStat " deletion".toList '-' stat = none →
      (parse_diff_stats raw stat mc).total_deletions = 0) ∧
    ((parse_diff_stats []
        (" a.py     | 5 ++++-\n b.py     | 8 ++++++--\n 2 files changed, 10 insertions(+), 3 deletions(-)".toList)
        none).files.length = 2 ∧
     (parse_diff_stats []
        (" a.py     | 5 ++++-\n b.py     | 8 ++++++--\n 2 files changed, 10 insertions(+), 3 deletions(-)".toList)
        none).total_additions = 10 ∧
     (parse_diff_stats []
        (" a.py     | 5 ++++-\n b.py     | 8 ++++++--\n 2 files changed, 10 insertions(+), 3 deletions(-)".toList)
        none).total_deletions = 3) := by
  refine ⟨fun raw stat mc => rfl, ?_, ?_, ?_⟩
  · intro raw stat mc h
    show (searchStat " insertion".toList '+' stat).getD 0 = 0
    rw [h]
    rfl
  · intro raw stat mc h
    show (searchStat " deletion".toList '-' stat).getD 0 = 0
    rw [h]
    rfl
  · refine ⟨?_, ?_, ?_⟩ <;> decide

/-- Witness for C3: a summary with a bar line but no insertions and no
deletions pattern yields zero counts. -/
theorem C3_witness :
    (parse_diff_stats [] (" x.py | 1 +-".toList) none).total_additions = 0 ∧
    (parse_diff_stats [] (" x.py | 1 +-".toList) none).total_deletions = 0 :=
  ⟨C3_diff_stat_parsing.2.1 [] (" x.py | 1 +-".toList) none (by decide),
   C3_diff_stat_parsing.2.2.1 [] (" x.py | 1 +-".toList) none (by decide)⟩

theorem truncate_diff_some (body : List Char) (n : Nat) :
    truncate_diff body (some n) =
      if n ≠ 0 ∧ n < body.length then body.take n ++ "\n\n... (truncated)".toList
      else body := rfl

/-- C4: with a positive budget, a body no longer than the budget passes
through unchanged (including the exact-equality boundary), and a longer
body is cut to exactly the first `budget` characters followed by the
literal truncation marker; in particular any 9000-character body under an
8000-character budget. -/
theorem C4_truncation :
    (∀ (body : List Char) (n : Nat), 0 < n →
      (body.length ≤ n → truncate_diff body (some n) = body) ∧
      (n < body.length →
        truncate_diff body (some n) = body.take n ++ "\n\n... (truncated)".toList ∧
        (body.take n).length = n)) ∧
    (∀ body : List Char, body.length = 9000 →
      truncate_diff body (some 8000) = body.take 8000 ++ "\n\n... (truncated)".toList ∧
      (body.take 8000).length = 8000) := by
  constructor
  · intro body n hn
    constructor
    · intro hle
      rw [truncate_diff_some, if_neg]
      omega
    · intro hlt
      rw [truncate_diff_some, if_pos ⟨by omega, hlt⟩]
      exact ⟨rfl, by rw [List.length_take]; omega⟩
  · intro body h
    rw [truncate_diff_some, if_pos ⟨by omega, by omega⟩]
    exact ⟨rfl, by rw [List.length_take]; omega⟩

/-- Witness for C4: a concrete 9000-character body under the
8000-character budget. -/
theorem C4_witness :
    truncate_diff (List.replicate 9000 'a') (some 8000) =
      (List.replicate 9000 'a').take 8000 ++ "\n\n... (truncated)".toList ∧
    ((List.replicate 9000 'a').take 8000).length = 8000 :=
  C4_truncation.2 (List.replicate 9000 'a') (by rw [List.length_replicate])

/-- C10: a budget of zero, like no budget at all, disables truncation in
`_parse_diff_stats`: the diff body is returned completely unchanged. -/
theorem C10_zero_budget :
    ∀ raw stat : List Char,
      (parse_diff_stats raw stat none).raw_diff = raw ∧
      (parse_diff_stats raw stat (some 0)).raw_diff = raw := by
  intro raw stat
  constructor
  · rfl
  · show truncate_diff raw (some 0) = raw
    rw [truncate_diff_some, if_neg]
    simp

/-! ## Commit log (`GitAnalyzer.get_recent_commits`) -/

/-- Field sentinel `%x00`. -/
def NUL : Char := '\x00'

/-- Record sentinel `%x01`. -/
def SOH : Char := '\x01'

/-- `CommitInfo` dataclass of `analyzer.py`; `date` is an abstract
timestamp (the embedding does not model `datetime` arithmetic). -/
structure CommitInfo where
  hash : List Char
  author : List Char
  email : List Char
  date : Nat
  subject : List Char
  body : List Char
  files_changed : Nat := 0
  insertions : Nat := 0
  deletions : Nat := 0
deriving Repr, DecidableEq

/-- Python `date_str.replace(' ', 'T', 1)`. -/
def replaceFirstSpace : List Char → List Char
  | [] => []
  | c :: cs => if c = ' ' then 'T' :: cs else c :: replaceFirstSpace cs

/-- Python `.replace(' ', '')`. -/
def removeSpaces (l : List Char) : List Char := l.filter (fun c => c != ' ')

/-- The body of the `for entry in entries` loop of `get_recent_commits`:
strip the fragment, skip it when empty, split it on the field sentinel,
drop it when it has fewer than five fields, and otherwise build a
`CommitInfo`; a failing date parse (`fromiso` returning `none`, Python's
`except (ValueError, IndexError)` branch) falls back to `now`. -/
def processEntry (fromiso : List Char → Option Nat) (now : Nat)
    (entry : List Char) : Option CommitInfo :=
  if (pyStrip entry).isEmpty then none
  else if 5 ≤ (pySplit NUL (pyStrip entry)).length then
    some { hash := (pySplit NUL (pyStrip entry)).getD 0 [],
           author := (pySplit NUL (pyStrip entry)).getD 1 [],
           email := (pySplit NUL (pyStrip entry)).getD 2 [],
           date := (fromiso (removeSpaces (replaceFirstSpace
             (pyStrip ((pySplit NUL (pyStrip entry)).getD 3 []))))).getD now,
           subject := (pySplit NUL (pyStrip entry)).getD 4 [],
           body := if 5 < (pySplit NUL (pyStrip entry)).length then
             (pySplit NUL (pyStrip entry)).getD 5 [] else [] }
  else none

/-- `GitAnalyzer.get_recent_commits`, with the raw `git log` output passed
in explicitly and `datetime.fromisoformat` / `datetime.now()` abstracted
as `fromiso` / `now`. -/
def get_recent_commits (fromiso : List Char → Option Nat) (now : Nat)
    (output : List Char) : List CommitInfo :=
  if (pyStrip output).isEmpty then []
  else (pySplit SOH output).filterMap (processEntry fromiso now)

/-- One synthesized log record: the five mandatory fields plus the body. -/
structure LogRecord where
  hash : List Char
  author : List Char
  email : List Char
  date : List Char
  subject : List Char
  body : List Char
deriving Repr, DecidableEq

/-- The text one record contributes under the pretty format
`%H%x00%an%x00%ae%x00%ad%x00%s%x00%b%x00%x01`, record sentinel
excluded. -/
def recordText (r : LogRecord) : List Char :=
  r.hash ++ [NUL] ++ r.author ++ [NUL] ++ r.email ++ [NUL] ++ r.date ++ [NUL] ++
    r.subject ++ [NUL] ++ r.body ++ [NUL]

/-- A synthesized log stream: each record's text terminated by the record
sentinel. -/
def buildLog (rs : List LogRecord) : List Char :=
  (rs.map (fun r => recordText r ++ [SOH])).flatten

/-- A field that contains neither sentinel byte. -/
def sentinelFree (f : List Char) : Prop := NUL ∉ f ∧ SOH ∉ f

/-- The first character, when present, is not whitespace. -/
def headNotWS : List Char → Bool
  | [] => true
  | c :: _ => !c.isWhitespace

/-- A well-formed synthesized record: sentinel-free fields, and a hash
that does not start with whitespace (a real hash is hexadecimal), so the
fragment-level `strip()` leaves the fragment intact. -/
def wellFormedRecord (r : LogRecord) : Prop :=
  sentinelFree r.hash ∧ sentinelFree r.author ∧ sentinelFree r.email ∧
    sentinelFree r.date ∧ sentinelFree r.subject ∧ sentinelFree r.body ∧
    headNotWS r.hash = true

instance decSentinelFree (f : List Char) : Decidable (sentinelFree f) := by
  unfold sentinelFree
  infer_instance

instance decWellFormedRecord (r : LogRecord) : Decidable (wellFormedRecord r) := by
  unfold wellFormedRecord
  infer_instance

/-- The `CommitInfo` a well-formed record parses to. -/
def commitOfRecord (fromiso : List Char → Option Nat) (now : Nat)
    (r : LogRecord) : CommitInfo :=
  { hash := r.hash, author := r.author, email := r.email,
    date := (fromiso (removeSpaces (replaceFirstSpace (pyStrip r.date)))).getD now,
    subject := r.subject, body := r.body }

theorem recordText_eq (r : LogRecord) :
    recordText r = r.hash ++ NUL :: (r.author ++ NUL :: (r.email ++ NUL ::
      (r.date ++ NUL :: (r.subject ++ NUL :: (r.body ++ [NUL]))))) := by
  simp [recordText]

theorem recordText_ne_nil (r : LogRecord) : recordText r ≠ [] := by
  rw [recordText_eq]
  intro h
  rcases List.append_eq_nil.mp h with ⟨-, h2⟩
  cases h2

theorem pyStrip_recordText (r : LogRecord) (h : headNotWS r.hash = true) :
    pyStrip (recordText r) = recordText r := by
  apply pyStrip_eq_self
  · intro c hc
    rw [recordText_eq] at hc
    cases hh : r.hash with
    | nil =>
      rw [hh, List.nil_append, List.head?_cons] at hc
      cases hc
      decide
    | cons a t =>
      rw [hh, List.cons_append, List.head?_cons] at hc
      cases hc
      rw [hh] at h
      simpa [headNotWS] using h
  · intro c hc
    have : recordText r = (r.hash ++ NUL :: (r.author ++ NUL :: (r.email ++ NUL ::
        (r.date ++ NUL :: (r.subject ++ NUL :: r.body))))) ++ [NUL] := by
      rw [recordText_eq]; simp
    rw [this, List.getLast?_concat] at hc
    cases hc
    decide

theorem pySplit_recordText (r : LogRecord) (h : wellFormedRecord r) :
    pySplit NUL (recordText r) =
      [r.hash, r.author, r.email, r.date, r.subject, r.body, []] := by
  obtain ⟨⟨h1, -⟩, ⟨h2, -⟩, ⟨h3, -⟩, ⟨h4, -⟩, ⟨h5, -⟩, ⟨h6, -⟩, -⟩ := h
  rw [recordText_eq, pySplit_append _ h1, pySplit_append _ h2, pySplit_append _ h3,
    pySplit_append _ h4, pySplit_append _ h5, pySplit_append _ h6]
  rfl

theorem processEntry_recordText (fromiso : List Char → Option Nat) (now : Nat)
    (r : LogRecord) (h : wellFormedRecord r) :
    processEntry fromiso now (recordText r) = some (commitOfRecord fromiso now r) := by
  have hs := pyStrip_recordText r h.2.2.2.2.2.2
  have hsplit := pySplit_recordText r h
  have hne : (recordText r).isEmpty = false := by
    cases hr : recordText r with
    | nil => exact absurd hr (recordText_ne_nil r)
    | cons a t => rfl
  unfold processEntry
  rw [hs, hsplit, hne]
  rfl

theorem soh_not_mem_recordText (r : LogRecord) (h : wellFormedRecord r) :
    SOH ∉ recordText r := by
  obtain ⟨⟨-, h1⟩, ⟨-, h2⟩, ⟨-, h3⟩, ⟨-, h4⟩, ⟨-, h5⟩, ⟨-, h6⟩, -⟩ := h
  intro hm
  rw [recordText_eq] at hm
  simp only [List.mem_append, List.mem_cons, List.mem_singleton] at hm
  have hne : ¬ SOH = NUL := by decide
  tauto

theorem buildLog_cons (r : LogRecord) (rs : List LogRecord) :
    buildLog (r :: rs) = recordText r ++ SOH :: buildLog rs := by
  simp [buildLog]

theorem pySplit_buildLog (rs : List LogRecord)
    (h : ∀ r ∈ rs, wellFormedRecord r) :
    pySplit SOH (buildLog rs) = rs.map recordText ++ [[]] := by
  induction rs with
  | nil => rfl
  | cons r rs ih =>
    rw [buildLog_cons, pySplit_append _ (soh_not_mem_recordText r (h r (List.mem_cons_self _ _))),
      ih (fun x hx => h x (List.mem_cons_of_mem _ hx))]
    rfl

theorem filterMap_processEntry (fromiso : List Char → Option Nat) (now : Nat)
    (rs : List LogRecord) (h : ∀ r ∈ rs, wellFormedRecord r) :
    (rs.map recordText ++ [[]]).filterMap (processEntry fromiso now) =
      rs.map (commitOfRecord fromiso now) := by
  induction rs with
  | nil => rfl
  | cons r rs ih =>
    have hr := processEntry_recordText fromiso now r (h r (List.mem_cons_self _ _))
    have hrs := ih (fun x hx => h x (List.mem_cons_of_mem _ hx))
    simp only [List.map_cons, List.cons_append, List.filterMap_cons, hr, hrs]

theorem get_recent_commits_buildLog (fromiso : List Char → Option Nat) (now : Nat)
    (rs : List LogRecord) (h : ∀ r ∈ rs, wellFormedRecord r) :
    get_recent_commits fromiso now (buildLog rs) =
      rs.map (commitOfRecord fromiso now) := by
  cases rs with
  | nil => rfl
  | cons r rs =>
    have hmem : NUL ∈ buildLog (r :: rs) := by
      rw [buildLog_cons, recordText_eq]
      simp
    have hne := pyStrip_ne_nil hmem (by decide)
    have hempty : (pyStrip (buildLog (r :: rs))).isEmpty = false := by
      cases hp : pyStrip (buildLog (r :: rs)) with
      | nil => exact absurd hp hne
      | cons a t => rfl
    unfold get_recent_commits
    rw [hempty, pySplit_buildLog _ h, filterMap_processEntry _ _ _ h]
    rfl

/-- C5: a log text synthesized with the record sentinel `0x01` and the
field sentinel `0x00` from well-formed records parses so that every
record's hash, author, email and subject are recovered exactly; a
fragment splitting into only four fields is dropped entirely; and output
in which no fragment is well formed yields the empty list rather than an
error. -/
theorem C5_commit_log_roundtrip :
    (∀ (fromiso : List Char → Option Nat) (now : Nat) (rs : List LogRecord),
      (∀ r ∈ rs, wellFormedRecord r) →
      (get_recent_commits fromiso now (buildLog rs)).map
          (fun c => (c.hash, c.author, c.email, c.subject)) =
        rs.map (fun r => (r.hash, r.author, r.email, r.subject))) ∧
    (∀ (fromiso : List Char → Option Nat) (now : Nat) (entry : List Char),
      (pySplit NUL (pyStrip entry)).length = 4 →
      processEntry fromiso now entry = none) ∧
    (∀ (fromiso : List Char → Option Nat) (now : Nat) (output : List Char),
      (∀ e ∈ pySplit SOH output, processEntry fromiso now e = none) →
      get_recent_commits fromiso now output = []) := by
  refine ⟨?_, ?_, ?_⟩
  · intro fromiso now rs h
    rw [get_recent_commits_buildLog fromiso now rs h, List.map_map]
    simp [commitOfRecord, Function.comp]
  · intro fromiso now entry h4
    by_cases he : (pyStrip entry).isEmpty
    · simp [processEntry, he]
    · simp [processEntry, he, h4]
  · intro fromiso now output h
    unfold get_recent_commits
    split
    · rfl
    · rw [List.filterMap_eq_nil_iff]
      exact h

/-- Witness for C5: a concrete one-record synthesized stream
round-trips. -/
theorem C5_witness :
    (get_recent_commits (fun _ => none) 0
        (buildLog [⟨"abc123".toList, "Alice".toList, "a@x.io".toList,
          "2024-01-01 10:00:00 +0000".toList, "init".toList, "first".toList⟩])).map
        (fun c => (c.hash, c.author, c.email, c.subject)) =
      ([⟨"abc123".toList, "Alice".toList, "a@x.io".toList,
          "2024-01-01 10:00:00 +0000".toList, "init".toList, "first".toList⟩] :
        List LogRecord).map (fun r => (r.hash, r.author, r.email, r.subject)) :=
  C5_commit_log_roundtrip.1 (fun _ => none) 0 _ (by decide)

theorem filterMap_processEntry_length (f₁ f₂ : List Char → Option Nat)
    (n₁ n₂ : Nat) (es : List (List Char)) :
    (es.filterMap (processEntry f₁ n₁)).length =
      (es.filterMap (processEntry f₂ n₂)).length := by
  induction es with
  | nil => rfl
  | cons e es ih =>
    have hsome : (processEntry f₁ n₁ e).isSome = (processEntry f₂ n₂ e).isSome := by
      unfold processEntry
      by_cases h1 : (pyStrip e).isEmpty
      · simp [h1]
      · by_cases h2 : 5 ≤ (pySplit NUL (pyStrip e)).length
        · simp [h1, h2]
        · simp [h1, h2]
    rw [List.filterMap_cons, List.filterMap_cons]
    cases hp1 : processEntry f₁ n₁ e with
    | none =>
      cases hp2 : processEntry f₂ n₂ e with
      | none => exact ih
      | some c => rw [hp1, hp2] at hsome; cases hsome
    | some c =>
      cases hp2 : processEntry f₂ n₂ e with
      | none => rw [hp1, hp2] at hsome; cases hsome
      | some c2 => simpa using ih

/-- C7: a fragment with at least five fields always yields a commit even
when date parsing fails — the timestamp falls back to `now` — and the
number of parsed commits does not depend on the date parser (or the
clock) at all. -/
theorem C7_date_fallback :
    (∀ (fromiso : List Char → Option Nat) (now : Nat) (entry : List Char),
      5 ≤ (pySplit NUL (pyStrip entry)).length →
      ∃ c : CommitInfo, processEntry fromiso now entry = some c ∧
        (fromiso (removeSpaces (replaceFirstSpace
            (pyStrip ((pySplit NUL (pyStrip entry)).getD 3 [])))) = none →
          c.date = now)) ∧
    (∀ (f₁ f₂ : List Char → Option Nat) (n₁ n₂ : Nat) (output : List Char),
      (get_recent_commits f₁ n₁ output).length =
        (get_recent_commits f₂ n₂ output).length) := by
  constructor
  · intro fromiso now entry h5
    have he : (pyStrip entry).isEmpty = false := by
      cases hp : pyStrip entry with
      | nil => rw [hp] at h5; simp [pySplit] at h5
      | cons a t => rfl
    have hpe : processEntry fromiso now entry = some
        { hash := (pySplit NUL (pyStrip entry)).getD 0 [],
          author := (pySplit NUL (pyStrip entry)).getD 1 [],
          email := (pySplit NUL (pyStrip entry)).getD 2 [],
          date := (fromiso (removeSpaces (replaceFirstSpace
            (pyStrip ((pySplit NUL (pyStrip entry)).getD 3 []))))).getD now,
          subject := (pySplit NUL (pyStrip entry)).getD 4 [],
          body := if 5 < (pySplit NUL (pyStrip entry)).length then
            (pySplit NUL (pyStrip entry)).getD 5 [] else [] } := by
      unfold processEntry
      rw [he, if_neg (by simp), if_pos h5]
    refine ⟨_, hpe, fun hd => ?_⟩
    show (fromiso (removeSpaces (replaceFirstSpace
      (pyStrip ((pySplit NUL (pyStrip entry)).getD 3 []))))).getD now = now
    rw [hd]
    rfl
  · intro f₁ f₂ n₁ n₂ output
    unfold get_recent_commits
    by_cases hc : (pyStrip output).isEmpty
    · simp [hc]
    · simp only [hc, Bool.false_eq_true, if_false]
      exact filterMap_processEntry_length f₁ f₂ n₁ n₂ _

/-- Witness for C7: a five-field fragment whose date field is not a date
still yields a commit, stamped with the supplied clock value. -/
theorem C7_witness :
    ∃ c : CommitInfo,
      processEntry (fun _ => none) 42
        ("h1\x00Alice\x00a@x.io\x00not a date\x00subject\x00body\x00".toList) = some c ∧
      ((fun _ => (none : Option Nat)) (removeSpaces (replaceFirstSpace
          (pyStrip ((pySplit NUL (pyStrip
            ("h1\x00Alice\x00a@x.io\x00not a date\x00subject\x00body\x00".toList))).getD 3 [])))) =
          none →
        c.date = 42) :=
  C7_date_fallback.1 (fun _ => none) 42
    ("h1\x00Alice\x00a@x.io\x00not a date\x00subject\x00body\x00".toList) (by decide)

/-! ## Command runner (`GitAnalyzer._run_git`) -/

/-- The completed-subprocess data `_run_git` inspects. -/
structure ProcResult where
  returncode : Int
  stdout : List Char
  stderr : List Char
deriving Repr, DecidableEq

/-- Python's `needle in hay` substring test. -/
def containsSub (needle : List Char) : List Char → Bool
  | [] => needle.isEmpty
  | c :: cs => needle.isPrefixOf (c :: cs) || containsSub needle cs

/-- `GitAnalyzer._run_git`'s handling of a completed process: raise
`RuntimeError` (modelled as `Except.error`) only when the exit code is
non-zero, standard-error is non-empty, and standard-error contains
`"fatal:"`; otherwise return the captured standard-output. -/
def run_git (r : ProcResult) : Except (List Char) (List Char) :=
  if r.returncode ≠ 0 ∧ r.stderr ≠ [] ∧ containsSub "fatal:".toList r.stderr = true then
    Except.error ("Git error: ".toList ++ pyStrip r.stderr)
  else Except.ok r.stdout

/-- Counterexample to C6 as stated: with exit code zero and standard-error
containing the fatal marker, `_run_git` does not fail — it returns
standard-output. -/
theorem C6_counterexample :
    containsSub "fatal:".toList "fatal: bad object HEAD".toList = true ∧
    run_git { returncode := 0, stdout := "partial output".toList,
              stderr := "fatal: bad object HEAD".toList } =
      Except.ok "partial output".toList := by
  constructor
  · decide
  · rfl

/-- C6 (amended): `_run_git` fails exactly when the exit code is non-zero,
standard-error is non-empty, and standard-error contains the fatal
marker; with a zero exit code, or whenever standard-error lacks the
marker, the captured standard-output is returned without raising. -/
theorem C6_fatal_marker : ∀ r : ProcResult,
    ((r.returncode ≠ 0 ∧ r.stderr ≠ [] ∧ containsSub "fatal:".toList r.stderr = true) →
      run_git r = Except.error ("Git error: ".toList ++ pyStrip r.stderr)) ∧
    (containsSub "fatal:".toList r.stderr = false → run_git r = Except.ok r.stdout) ∧
    (r.returncode = 0 → run_git r = Except.ok r.stdout) := by
  intro r
  refine ⟨?_, ?_, ?_⟩
  · intro h
    unfold run_git
    rw [if_pos h]
  · intro h
    unfold run_git
    rw [if_neg]
    intro hc
    rw [h] at hc
    cases hc.2.2
  · intro h
    unfold run_git
    rw [if_neg]
    intro hc
    exact hc.1 h

/-- Witness for C6: a non-zero exit whose standard-error lacks the marker
returns standard-output, and a fatal standard-error with non-zero exit
raises. -/
theorem C6_witness :
    run_git { returncode := 1, stdout := "out".toList,
              stderr := "warning: something".toList } = Except.ok "out".toList ∧
    run_git { returncode := 128, stdout := [],
              stderr := "fatal: not a git repository".toList } =
      Except.error ("Git error: ".toList ++
        pyStrip "fatal: not a git repository".toList) :=
  ⟨(C6_fatal_marker ⟨1, "out".toList, "warning: something".toList⟩).2.1 (by decide),
   (C6_fatal_marker ⟨128, [], "fatal: not a git repository".toList⟩).1 (by decide)⟩

/-! ## Provider selection (`Config.get_active_provider`) -/

/-- `LLMProvider` enum of `config.py`. -/
inductive LLMProvider where
  | gemini
  | openrouter
deriving Repr, DecidableEq

/-- `Config` dataclass of `config.py`; the field defaults model an
environment with no variables set. -/
structure Config where
  gemini_api_key : List Char := []
  openrouter_api_key : List Char := []
  default_days : Int := 7
  max_diff_chars : Int := 8000
  gemini_model : List Char := "gemini-flash-latest".toList
  openrouter_model : List Char := "xiaomi/mimo-v2-flash:free".toList
  preferred_provider : List Char := "auto".toList
  slack_webhook_url : List Char := []
deriving Repr, DecidableEq

/-- The `ValueError` message raised when no provider is available. -/
def noProviderMsg : List Char :=
  ("No LLM API key configured. Please set one of:\n" ++
   "  • OPENROUTER_API_KEY (get free at https://openrouter.ai/keys) [RECOMMENDED]\n" ++
   "  • GEMINI_API_KEY (get at https://aistudio.google.com/apikey)").toList

/-- `Config.get_active_provider`: an explicit preference is honoured only
when that provider's key is set; under `"auto"` OpenRouter wins when its
key is set, else Gemini; anything else falls through to the
`ValueError`. -/
def get_active_provider (c : Config) : Except (List Char) LLMProvider :=
  if c.preferred_provider = "gemini".toList ∧ c.gemini_api_key ≠ [] then
    Except.ok LLMProvider.gemini
  else if c.preferred_provider = "openrouter".toList ∧ c.openrouter_api_key ≠ [] then
    Except.ok LLMProvider.openrouter
  else if c.preferred_provider = "auto".toList then
    if c.openrouter_api_key ≠ [] then Except.ok LLMProvider.openrouter
    else if c.gemini_api_key ≠ [] then Except.ok LLMProvider.gemini
    else Except.error noProviderMsg
  else Except.error noProviderMsg

theorem exists_error_ok {α β : Type} (x : β) :
    (∃ e : α, (Except.ok x : Except α β) = Except.error e) ↔ False :=
  ⟨fun ⟨_, he⟩ => (nomatch he), False.elim⟩

theorem exists_error_error {α β : Type} (e0 : α) :
    (∃ e : α, (Except.error e0 : Except α β) = Except.error e) ↔ True :=
  ⟨fun _ => trivial, fun _ => ⟨e0, rfl⟩⟩

/-- Counterexample to C8 as stated: with `preferred_provider = "gemini"`
and only the OpenRouter credential set, selection raises even though a
backend credential is present. -/
theorem C8_counterexample :
    ({ openrouter_api_key := "sk-or-key".toList,
       preferred_provider := "gemini".toList } : Config).openrouter_api_key ≠ [] ∧
    get_active_provider
        { openrouter_api_key := "sk-or-key".toList,
          preferred_provider := "gemini".toList } =
      Except.error noProviderMsg := by
  constructor
  · decide
  · rfl

/-- C8 (amended): selection raises the no-provider error iff no branch of
the preference chain matches — explicit `"gemini"`/`"openrouter"`
preferences require that provider's own credential, and `"auto"` requires
at least one credential; in particular, with no credential set for any
backend it always raises. -/
theorem C8_no_provider : ∀ c : Config,
    ((∃ e, get_active_provider c = Except.error e) ↔
      ¬((c.preferred_provider = "gemini".toList ∧ c.gemini_api_key ≠ []) ∨
        (c.preferred_provider = "openrouter".toList ∧ c.openrouter_api_key ≠ []) ∨
        (c.preferred_provider = "auto".toList ∧
          (c.openrouter_api_key ≠ [] ∨ c.gemini_api_key ≠ [])))) ∧
    (c.gemini_api_key = [] → c.openrouter_api_key = [] →
      get_active_provider c = Except.error noProviderMsg) := by
  intro c
  constructor
  · unfold get_active_provider
    by_cases hA : c.preferred_provider = "gemini".toList ∧ c.gemini_api_key ≠ []
    · rw [if_pos hA, exists_error_ok, false_iff, not_not]
      exact Or.inl hA
    · rw [if_neg hA]
      by_cases hB : c.preferred_provider = "openrouter".toList ∧ c.openrouter_api_key ≠ []
      · rw [if_pos hB, exists_error_ok, false_iff, not_not]
        exact Or.inr (Or.inl hB)
      · rw [if_neg hB]
        by_cases hC : c.preferred_provider = "auto".toList
        · rw [if_pos hC]
          by_cases hD : c.openrouter_api_key ≠ []
          · rw [if_pos hD, exists_error_ok, false_iff, not_not]
            exact Or.inr (Or.inr ⟨hC, Or.inl hD⟩)
          · rw [if_neg hD]
            by_cases hE : c.gemini_api_key ≠ []
            · rw [if_pos hE, exists_error_ok, false_iff, not_not]
              exact Or.inr (Or.inr ⟨hC, Or.inr hE⟩)
            · rw [if_neg hE, exists_error_error, true_iff]
              tauto
        · rw [if_neg hC, exists_error_error, true_iff]
          tauto
  · intro hg ho
    unfold get_active_provider
    rw [if_neg (fun h => h.2 hg), if_neg (fun h => h.2 ho)]
    by_cases hC : c.preferred_provider = "auto".toList
    · rw [if_pos hC, if_neg (fun h => h ho), if_neg (fun h => h hg)]
    · rw [if_neg hC]

/-- Witness for C8: the all-defaults configuration (no environment
variables set) has no credential and selection raises. -/
theorem C8_witness :
    get_active_provider {} = Except.error noProviderMsg :=
  (C8_no_provider {}).2 rfl rfl

/-- C9: under the `"auto"` preference, OpenRouter (the free-tier backend)
is selected when both credentials are set; with exactly one credential
set, that backend is selected. -/
theorem C9_auto_prefers_openrouter : ∀ c : Config,
    c.preferred_provider = "auto".toList →
    (c.openrouter_api_key ≠ [] → c.gemini_api_key ≠ [] →
      get_active_provider c = Except.ok LLMProvider.openrouter) ∧
    (c.openrouter_api_key ≠ [] → c.gemini_api_key = [] →
      get_active_provider c = Except.ok LLMProvider.openrouter) ∧
    (c.openrouter_api_key = [] → c.gemini_api_key ≠ [] →
      get_active_provider c = Except.ok LLMProvider.gemini) := by
  intro c hauto
  have hg : ¬(c.preferred_provider = "gemini".toList ∧ c.gemini_api_key ≠ []) :=
    fun h => absurd (hauto.symm.trans h.1) (by decide)
  have hor : ¬(c.preferred_provider = "openrouter".toList ∧ c.openrouter_api_key ≠ []) :=
    fun h => absurd (hauto.symm.trans h.1) (by decide)
  refine ⟨?_, ?_, ?_⟩
  · intro ho _
    unfold get_active_provider
    rw [if_neg hg, if_neg hor, if_pos hauto, if_pos ho]
  · intro ho _
    unfold get_active_provider
    rw [if_neg hg, if_neg hor, if_pos hauto, if_pos ho]
  · intro ho hge
    unfold get_active_provider
    rw [if_neg hg, if_neg hor, if_pos hauto, if_neg (fun h => h ho), if_pos hge]

/-- Witness for C9: with both credentials set under `"auto"`, OpenRouter
is selected. -/
theorem C9_witness :
    get_active_provider
        { gemini_api_key := "g-key".toList, openrouter_api_key := "or-key".toList } =
      Except.ok LLMProvider.openrouter :=
  (C9_auto_prefers_openrouter
      { gemini_api_key := "g-key".toList, openrouter_api_key := "or-key".toList }
      rfl).1 (by decide) (by decide)

end GitSummarizer
